import Mathlib

set_option maxRecDepth 100000

/-!
Shallow embedding of `src/core_read.cpp` (BitcoinXT): the script assembler
`ParseScript` and the hex-decoding wrappers `DecodeHexTx` / `DecodeHexBlk`.

Bytes are modelled as `Nat` values in `[0, 255]`; the script buffer is a
`List Nat`.  Tokens and the input string are modelled as `List Char`
(the C++ code works on byte strings; all inputs of interest are ASCII).
Thrown `std::runtime_error`s are modelled as an `Except` error value carrying
the same information the C++ message string is built from; `errMsg` rebuilds
the exact message text.
-/

/-- Opcode constant `OP_0 = 0x00` (from script.h, referenced by the spec). -/
def OP_0 : Nat := 0

/-- Opcode constant `OP_PUSHDATA1 = 0x4c = 76`, the first multi-byte push
opcode; values `1..75` are direct-length pushes. -/
def OP_PUSHDATA1 : Nat := 76

/-- Opcode constant `OP_PUSHDATA2 = 0x4d = 77`. -/
def OP_PUSHDATA2 : Nat := 77

/-- Opcode constant `OP_PUSHDATA4 = 0x4e = 78`. -/
def OP_PUSHDATA4 : Nat := 78

/-- Opcode constant `OP_1 = 0x51 = 81`. -/
def OP_1 : Nat := 81

/-- The single-quote character, used by the quoted-literal token rule. -/
def squote : Char := Char.ofNat 39

/-- Decimal digit test, `boost::algorithm::is_digit` on one char. -/
def isDigitB (c : Char) : Bool :=
  48 ≤ c.toNat && c.toNat ≤ 57

/-- Hex digit test, mirroring `HexDigit(c) >= 0` from utilstrencodings. -/
def isHexDigitB (c : Char) : Bool :=
  (48 ≤ c.toNat && c.toNat ≤ 57) ||
  (97 ≤ c.toNat && c.toNat ≤ 102) ||
  (65 ≤ c.toNat && c.toNat ≤ 70)

/-- Value of a hex digit (only meaningful when `isHexDigitB` holds). -/
def hexDigitVal (c : Char) : Nat :=
  if 48 ≤ c.toNat && c.toNat ≤ 57 then c.toNat - 48
  else if 97 ≤ c.toNat && c.toNat ≤ 102 then c.toNat - 87
  else if 65 ≤ c.toNat && c.toNat ≤ 70 then c.toNat - 55
  else 0

/-- `IsHex` from utilstrencodings: every char is a hex digit, the string is
non-empty and has even length. -/
def IsHex (s : List Char) : Bool :=
  s.all isHexDigitB && decide (0 < s.length) && decide (s.length % 2 = 0)

/-- `ParseHex` restricted to strings already validated by `IsHex`: decode
consecutive digit pairs into bytes (the real function also skips spaces and
stops at the first non-hex character, which cannot happen on validated
input). -/
def ParseHex : List Char → List Nat
  | c1 :: c2 :: rest => (16 * hexDigitVal c1 + hexDigitVal c2) :: ParseHex rest
  | _ => []

/-- `atoi64` (strtoll semantics on a token of shape `-?[0-9]*`): parse the
optional sign and the digit run, saturating at the int64 bounds.  A lone
minus sign parses as 0, exactly as `strtoll` does. -/
def atoi64 (w : List Char) : Int :=
  let p := match w with
    | c :: rest => if c = Char.ofNat 45 then (true, rest) else (false, w)
    | [] => (false, ([] : List Char))
  let mag : Nat := p.2.foldl (fun a c => 10 * a + (c.toNat - 48)) 0
  let v : Int := if p.1 then -(Int.ofNat mag) else Int.ofNat mag
  max (-(2 ^ 63)) (min (2 ^ 63 - 1) v)

/-- Little-endian magnitude bytes, the loop inside `CScriptNum::serialize`:
emit `absvalue & 0xff` and shift right by 8 until zero. -/
def serializeMagnitude (n : Nat) : List Nat :=
  if h : n = 0 then []
  else (n % 256) :: serializeMagnitude (n / 256)
termination_by n
decreasing_by exact Nat.div_lt_self (Nat.pos_of_ne_zero h) (by decide)

/-- `CScriptNum::serialize`: little-endian sign-magnitude encoding with the
sign carried in the high bit of the last byte (an extra byte is appended if
the top magnitude byte already has its high bit set). -/
def CScriptNum_serialize (value : Int) : List Nat :=
  if value = 0 then []
  else
    let neg : Bool := decide (value < 0)
    let r := serializeMagnitude value.natAbs
    let last := r.getLastD 0
    if 128 ≤ last then r ++ [if neg then 128 else 0]
    else if neg then r.dropLast ++ [last + 128]
    else r

/-- `CScript::operator<<(const std::vector<unsigned char>&)`: the generic
data-push encoder.  It prepends a direct-length byte for < 76 bytes, else
PUSHDATA1/2/4 with a little-endian length field of 1/2/4 bytes. -/
def pushData (b : List Nat) : List Nat :=
  if b.length < OP_PUSHDATA1 then
    b.length :: b
  else if b.length ≤ 255 then
    OP_PUSHDATA1 :: b.length :: b
  else if b.length ≤ 65535 then
    OP_PUSHDATA2 :: (b.length % 256) :: (b.length / 256 % 256) :: b
  else
    OP_PUSHDATA4 :: (b.length % 256) :: (b.length / 256 % 256) ::
      (b.length / 65536 % 256) :: (b.length / 16777216 % 256) :: b

/-- `CScript::push_int64`: `-1` and `1..16` become the one-byte opcodes
`OP_1NEGATE` / `OP_1..OP_16`, zero becomes `OP_0`, anything else is pushed
as `CScriptNum::serialize` data via the generic data-push encoder. -/
def pushInt64 (n : Int) : List Nat :=
  if n = -1 ∨ (1 ≤ n ∧ n ≤ 16) then [(n + (OP_1 - 1)).toNat]
  else if n = 0 then [OP_0]
  else pushData (CScriptNum_serialize n)

/-- Decimal-token classifier (core_read.cpp lines 71-74):
`all(w, is_digit()) || (starts_with(w, "-") && all(w.substr(1), is_digit()))`.
Note `boost::algorithm::all` is true on an empty range, so a lone `-`
classifies as decimal. -/
def isDecimalToken (w : List Char) : Bool :=
  w.all isDigitB ||
    (match w with
     | c :: rest => decide (c = Char.ofNat 45) && rest.all isDigitB
     | [] => false)

/-- Hex-token classifier (line 82-83): starts with `0x` and has at least one
character after the prefix. -/
def isHexToken (w : List Char) : Bool :=
  match w with
  | c0 :: c1 :: rest =>
      decide (c0 = Char.ofNat 48) && decide (c1 = Char.ofNat 120) &&
        !rest.isEmpty
  | _ => false

/-- Quoted-token classifier (lines 99-100): length at least 2, first and last
character a single quote. -/
def isQuotedToken (w : List Char) : Bool :=
  decide (2 ≤ w.length) && decide (w.head? = some squote) &&
    decide (w.getLast? = some squote)

/-- The errors `ParseScript` can throw, as a structured variant; `errMsg`
rebuilds the exact `std::runtime_error` message text of each. -/
inductive ScriptErr where
  | malformedHex : ScriptErr
  | pushSizeMismatch : Nat → Nat → ScriptErr
  | syntaxError : List Char → ScriptErr
deriving DecidableEq

/-- The exact `std::runtime_error` message each throw site builds
(`boost::lexical_cast<std::string>` of a `size_t` is its decimal digits,
`Nat.repr`). -/
def errMsg : ScriptErr → List Char
  | ScriptErr.malformedHex =>
      ("Hex numbers expected to be formatted in full-byte chunks (ex: 0x00 instead of 0x0)").data
  | ScriptErr.pushSizeMismatch e p =>
      ("Wrong number of bytes being pushed. Expected:").data ++ (Nat.repr e).data ++
        (" Pushed:").data ++ (Nat.repr p).data
  | ScriptErr.syntaxError s => ("Error parsing script: ").data ++ s

/-- Modelled from the spec: `GetOpName` and the `opcodetype` enumeration live
in `script/script.{h,cpp}`, which is not under `src/`.  Per the spec, every
defined opcode has a canonical name carrying the common `OP_` prefix and any
value without a defined name resolves to the sentinel name `OP_UNKNOWN`.
This model assigns the canonical names of a representative set of defined
opcodes in `[OP_PUSHDATA1, FIRST_UNDEFINED_OP_VALUE)` and the sentinel to
every other value. -/
def GetOpName : Nat → String
  | 76 => "OP_PUSHDATA1"
  | 77 => "OP_PUSHDATA2"
  | 78 => "OP_PUSHDATA4"
  | 79 => "OP_1NEGATE"
  | 80 => "OP_RESERVED"
  | 81 => "OP_1"
  | 82 => "OP_2"
  | 83 => "OP_3"
  | 84 => "OP_4"
  | 85 => "OP_5"
  | 86 => "OP_6"
  | 87 => "OP_7"
  | 88 => "OP_8"
  | 89 => "OP_9"
  | 90 => "OP_10"
  | 91 => "OP_11"
  | 92 => "OP_12"
  | 93 => "OP_13"
  | 94 => "OP_14"
  | 95 => "OP_15"
  | 96 => "OP_16"
  | 97 => "OP_NOP"
  | 99 => "OP_IF"
  | 100 => "OP_NOTIF"
  | 103 => "OP_ELSE"
  | 104 => "OP_ENDIF"
  | 105 => "OP_VERIFY"
  | 106 => "OP_RETURN"
  | 107 => "OP_TOALTSTACK"
  | 108 => "OP_FROMALTSTACK"
  | 109 => "OP_2DROP"
  | 110 => "OP_2DUP"
  | 115 => "OP_IFDUP"
  | 116 => "OP_DEPTH"
  | 117 => "OP_DROP"
  | 118 => "OP_DUP"
  | 124 => "OP_SWAP"
  | 130 => "OP_SIZE"
  | 135 => "OP_EQUAL"
  | 136 => "OP_EQUALVERIFY"
  | 139 => "OP_1ADD"
  | 140 => "OP_1SUB"
  | 143 => "OP_NEGATE"
  | 144 => "OP_ABS"
  | 145 => "OP_NOT"
  | 147 => "OP_ADD"
  | 148 => "OP_SUB"
  | 154 => "OP_BOOLAND"
  | 155 => "OP_BOOLOR"
  | 156 => "OP_NUMEQUAL"
  | 166 => "OP_RIPEMD160"
  | 167 => "OP_SHA1"
  | 168 => "OP_SHA256"
  | 169 => "OP_HASH160"
  | 170 => "OP_HASH256"
  | 171 => "OP_CODESEPARATOR"
  | 172 => "OP_CHECKSIG"
  | 173 => "OP_CHECKSIGVERIFY"
  | 174 => "OP_CHECKMULTISIG"
  | 175 => "OP_CHECKMULTISIGVERIFY"
  | 176 => "OP_NOP1"
  | 177 => "OP_CHECKLOCKTIMEVERIFY"
  | 185 => "OP_NOP10"
  | _ => "OP_UNKNOWN"

/-- Modelled from the spec: `FIRST_UNDEFINED_OP_VALUE` (script.h, not under
`src/`), the exclusive upper bound of the opcode-table construction loop. -/
def FIRST_UNDEFINED_OP_VALUE : Nat := 186

/-- `boost::algorithm::replace_first(strName, "OP_", "")` on a canonical
opcode name: every canonical name begins with `OP_`, so replacing the first
occurrence is removal of the leading prefix. -/
def stripOP (w : List Char) : List Char :=
  match w with
  | c0 :: c1 :: c2 :: rest =>
      if c0 = Char.ofNat 79 ∧ c1 = Char.ofNat 80 ∧ c2 = Char.ofNat 95 then rest
      else c0 :: c1 :: c2 :: rest
  | w => w

/-- The opcode table (core_read.cpp lines 31-45): for every opcode value
below `FIRST_UNDEFINED_OP_VALUE`, skipping values below `OP_PUSHDATA1` and
values whose name is the `OP_UNKNOWN` sentinel, map both the canonical name
and its `OP_`-stripped alias to the opcode. -/
def mapOpNames : List (List Char × Nat) :=
  ((List.range FIRST_UNDEFINED_OP_VALUE).map (fun op =>
    if op < OP_PUSHDATA1 then []
    else if GetOpName op = "OP_UNKNOWN" then []
    else [((GetOpName op).data, op), (stripOP (GetOpName op).data, op)])).flatten

/-- Lookup in the opcode table (`std::map::count` / `operator[]`; keys are
unique, so first-match lookup coincides with map lookup). -/
def lookupOp : List (List Char × Nat) → List Char → Option Nat
  | [], _ => none
  | (k, v) :: rest, w => if k = w then some v else lookupOp rest w

/-- The bytes one token appends to the script buffer, or the error thrown
while processing it (core_read.cpp lines 70-117): the four classification
rules in priority order -- decimal integer, raw hex, quoted literal, opcode
mnemonic -- and the final `runtime_error` carrying the whole input `s`. -/
def tokenBytes (s : List Char) (table : List (List Char × Nat)) (w : List Char) :
    Except ScriptErr (List Nat) :=
  if isDecimalToken w then Except.ok (pushInt64 (atoi64 w))
  else if isHexToken w then
    if IsHex (w.drop 2) then Except.ok (ParseHex (w.drop 2))
    else Except.error ScriptErr.malformedHex
  else if isQuotedToken w then
    Except.ok (pushData (((w.drop 1).dropLast).map Char.toNat))
  else
    match lookupOp table w with
    | some op => Except.ok [op]
    | none => Except.error (ScriptErr.syntaxError s)

/-- `ReadLE16` / `ReadLE32` (and the plain byte read for width 1) applied to
the bytes just appended at offset `script_size`. -/
def readLE (width : Nat) (b : List Nat) : Nat :=
  if width = 1 then b.getD 0 0
  else if width = 2 then b.getD 0 0 + 256 * b.getD 1 0
  else if width = 4 then
    b.getD 0 0 + 256 * b.getD 1 0 + 65536 * b.getD 2 0 + 16777216 * b.getD 3 0
  else 0

/-- One iteration of the `ParseScript` loop body on a non-empty token
(core_read.cpp lines 62-176).  State in: the buffer, `push_size` (this
token's pending push expectation, i.e. last iteration's `next_push_size`)
and `push_data_size`.  State out: the new buffer, `next_push_size` and
`push_data_size`.  The blocks after the `next:` label are, in order: the
push-size mismatch check, the PUSHDATA length-field decode, and the
single-byte push-opcode detection (which reads the last byte of the
buffer, `*result.rbegin()`). -/
def processToken (s : List Char) (table : List (List Char × Nat))
    (result : List Nat) (pushSize pds : Nat) (w : List Char) :
    Except ScriptErr (List Nat × Nat × Nat) :=
  match tokenBytes s table w with
  | Except.error e => Except.error e
  | Except.ok bs =>
    if pushSize ≠ 0 ∧ bs.length ≠ pushSize then
      Except.error (ScriptErr.pushSizeMismatch pushSize bs.length)
    else
      let np : Nat × Nat :=
        if pushSize ≠ 0 ∧ pds ≠ 0 then (readLE pds bs, 0) else (0, pds)
      if pushSize = 0 ∧ bs.length = 1 then
        let op := ((result ++ bs).getLast?).getD 0
        if op < OP_PUSHDATA1 then Except.ok (result ++ bs, op, np.2)
        else if op = OP_PUSHDATA1 then Except.ok (result ++ bs, 1, 1)
        else if op = OP_PUSHDATA2 then Except.ok (result ++ bs, 2, 2)
        else if op = OP_PUSHDATA4 then Except.ok (result ++ bs, 4, 4)
        else Except.ok (result ++ bs, np.1, np.2)
      else Except.ok (result ++ bs, np.1, np.2)

/-- The `ParseScript` token loop: empty tokens are skipped (lines 57-61),
each non-empty token is processed by `processToken`, and the loop ends with
the buffer as-is -- there is no end-of-input check on the pending state. -/
def runTokens (s : List Char) (table : List (List Char × Nat)) :
    List (List Char) → List Nat → Nat → Nat → Except ScriptErr (List Nat)
  | [], result, _, _ => Except.ok result
  | w :: ws, result, nps, pds =>
    if w = [] then runTokens s table ws result nps pds
    else
      match processToken s table result nps pds w with
      | Except.error e => Except.error e
      | Except.ok (r, n, p) => runTokens s table ws r n p

/-- Whitespace test of the splitter: space, tab or newline. -/
def isSep (c : Char) : Bool :=
  decide (c = Char.ofNat 32) || decide (c = Char.ofNat 9) ||
    decide (c = Char.ofNat 10)

/-- Tokenizer accumulator: collect maximal non-whitespace runs.
`boost::algorithm::split` with `token_compress_on` additionally yields an
empty token for a leading/trailing separator run (and one empty token for
the empty input); since the loop discards empty tokens before touching any
state, dropping them during splitting is behaviourally identical. -/
def tokenizeAux : List Char → List Char → List (List Char)
  | [], cur => if cur = [] then [] else [cur.reverse]
  | c :: rest, cur =>
    if isSep c then
      if cur = [] then tokenizeAux rest []
      else cur.reverse :: tokenizeAux rest []
    else tokenizeAux rest (c :: cur)

/-- Split the input on runs of space/tab/newline (lines 47-49). -/
def tokenize (s : List Char) : List (List Char) :=
  tokenizeAux s []

/-- `ParseScript` (core_read.cpp lines 25-180): tokenize, then run the loop
from the empty buffer with no pending push state. -/
def ParseScript (s : List Char) : Except ScriptErr (List Nat) :=
  runTokens s mapOpNames (tokenize s) [] 0 0

/-- Modelled from the spec: the versioned binary deserializer
(`CDataStream >> tx`, serialize.h/streams.h, not under `src/`) is abstracted
as a function from the byte stream to either an exception (any
`std::exception`, modelled as `Unit`) or the parsed value together with the
unconsumed remainder of the stream. -/
def Deserializer (α : Type) : Type :=
  List Nat → Except Unit (α × List Nat)

/-- `DecodeHexTx` (core_read.cpp lines 182-199): fail on non-hex input, run
the deserializer catching any exception, fail if bytes remain unconsumed
(`!ssData.empty()`), succeed otherwise. -/
def DecodeHexTx {α : Type} (deser : Deserializer α) (s : List Char) : Bool :=
  if IsHex s = false then false
  else
    match deser (ParseHex s) with
    | Except.error _ => false
    | Except.ok p => if p.2.isEmpty = false then false else true

/-- `DecodeHexBlk` (core_read.cpp lines 201-216): fail on non-hex input, run
the deserializer catching any exception, succeed otherwise.  Unlike
`DecodeHexTx` it performs no check on unconsumed trailing bytes. -/
def DecodeHexBlk {α : Type} (deser : Deserializer α) (s : List Char) : Bool :=
  if IsHex s = false then false
  else
    match deser (ParseHex s) with
    | Except.error _ => false
    | Except.ok _ => true

/-- A deserializer that succeeds consuming nothing, used as a concrete
instantiation exhibiting unconsumed trailing bytes. -/
def idDeser : Deserializer Unit :=
  fun bs => Except.ok ((), bs)

/-- Substring occurrence test on character lists (for statements about what
an error message carries): `isSubAt small big` checks that `small` is an
initial segment of `big`, `containsSub` that it occurs anywhere. -/
def isSubAt : List Char → List Char → Bool
  | [], _ => true
  | _ :: _, [] => false
  | a :: as, b :: bs => decide (a = b) && isSubAt as bs

/-- `containsSub small big`: `small` occurs contiguously inside `big`. -/
def containsSub (small : List Char) : List Char → Bool
  | [] => isSubAt small []
  | c :: rest => isSubAt small (c :: rest) || containsSub small rest

instance {ε α : Type} [DecidableEq ε] [DecidableEq α] : DecidableEq (Except ε α) :=
  fun a b =>
    match a, b with
    | Except.ok x, Except.ok y =>
        match decEq x y with
        | isTrue h => isTrue (by rw [h])
        | isFalse h => isFalse (fun hh => h (Except.ok.inj hh))
    | Except.error x, Except.error y =>
        match decEq x y with
        | isTrue h => isTrue (by rw [h])
        | isFalse h => isFalse (fun hh => h (Except.error.inj hh))
    | Except.ok _, Except.error _ => isFalse (fun hh => Except.noConfusion hh)
    | Except.error _, Except.ok _ => isFalse (fun hh => Except.noConfusion hh)

/-- Decoding validated hex yields exactly one byte per digit pair: the
buffer grows by half the number of hex digits. -/
theorem ParseHex_length : ∀ h : List Char, (ParseHex h).length = h.length / 2
  | [] => rfl
  | [_] => by simp [ParseHex]
  | c1 :: c2 :: rest => by
      have ih := ParseHex_length rest
      simp only [ParseHex, List.length_cons, ih]
      omega

/-- Unfolding the token loop on a non-empty token. -/
theorem runTokens_cons (s : List Char) (table : List (List Char × Nat))
    (w : List Char) (ws : List (List Char)) (r : List Nat) (n p : Nat)
    (hw : w ≠ []) :
    runTokens s table (w :: ws) r n p =
      match processToken s table r n p w with
      | Except.error e => Except.error e
      | Except.ok (r2, n2, p2) => runTokens s table ws r2 n2 p2 := by
  simp [runTokens, hw]

/-- The unknown-token error is the only error built from the whole input,
and it always carries exactly the input string `s`. -/
theorem tokenBytes_syntaxError (s : List Char) (table : List (List Char × Nat))
    (w t : List Char)
    (h : tokenBytes s table w = Except.error (ScriptErr.syntaxError t)) :
    t = s := by
  unfold tokenBytes at h
  split at h
  · simp at h
  · split at h
    · split at h <;> simp_all
    · split at h
      · simp at h
      · split at h <;> simp_all

/-- Any error produced by one loop iteration is either the error thrown
while classifying and appending the token, or a push-size mismatch. -/
theorem processToken_error_cases (s : List Char) (table : List (List Char × Nat))
    (r : List Nat) (n p : Nat) (w : List Char) (e : ScriptErr)
    (h : processToken s table r n p w = Except.error e) :
    tokenBytes s table w = Except.error e ∨
      ∃ a b, e = ScriptErr.pushSizeMismatch a b := by
  unfold processToken at h
  split at h
  · next e2 heq =>
      simp only [Except.error.injEq] at h
      subst h
      exact Or.inl heq
  · next bs heq =>
      split at h
      · simp only [Except.error.injEq] at h
        exact Or.inr ⟨_, _, h.symm⟩
      · simp only [] at h
        repeat' split at h
        all_goals simp at h

/-- A token starting `0x` is never classified as decimal: `x` is no digit. -/
theorem isDecimalToken_0x (h : List Char) :
    isDecimalToken (Char.ofNat 48 :: Char.ofNat 120 :: h) = false := by
  have h1 : isDigitB (Char.ofNat 120) = false := by decide
  have h2 : decide (Char.ofNat 48 = Char.ofNat 45) = false := by decide
  simp [isDecimalToken, List.all_cons, h1, h2]

/-- A token starting `0x` with a non-empty remainder matches the hex rule. -/
theorem isHexToken_0x (h : List Char) (hne : h ≠ []) :
    isHexToken (Char.ofNat 48 :: Char.ofNat 120 :: h) = true := by
  have h1 : decide (Char.ofNat 48 = Char.ofNat 48) = true := by decide
  have h2 : decide (Char.ofNat 120 = Char.ofNat 120) = true := by decide
  cases h with
  | nil => exact absurd rfl hne
  | cons a t => simp [isHexToken, h1, h2]

/-- The raw-hex rule (lines 82-97) in one equation: a `0x`-prefixed token
with non-empty remainder either decodes to exactly the raw bytes (no push
opcode emitted) or throws the malformed-hex error. -/
theorem tokenBytes_hex (s : List Char) (table : List (List Char × Nat))
    (h : List Char) (hne : h ≠ []) :
    tokenBytes s table (Char.ofNat 48 :: Char.ofNat 120 :: h) =
      (if IsHex h then Except.ok (ParseHex h)
       else Except.error ScriptErr.malformedHex) := by
  unfold tokenBytes
  rw [isDecimalToken_0x, isHexToken_0x h hne]
  simp [List.drop]

/-- The quoted-literal rule (lines 99-107) in one equation: the bytes
between the quotes, verbatim, through the generic data-push encoder. -/
theorem tokenBytes_quoted (s : List Char) (table : List (List Char × Nat))
    (content : List Char) :
    tokenBytes s table (squote :: content ++ [squote]) =
      Except.ok (pushData (content.map Char.toNat)) := by
  have hd : isDecimalToken (squote :: (content ++ [squote])) = false := by
    have h1 : isDigitB squote = false := by decide
    have h2 : decide (squote = Char.ofNat 45) = false := by decide
    simp [isDecimalToken, List.all_cons, h1, h2]
  have hh : isHexToken (squote :: (content ++ [squote])) = false := by
    have h1 : decide (squote = Char.ofNat 48) = false := by decide
    cases content with
    | nil => simp [isHexToken, h1]
    | cons a t => simp [isHexToken, h1]
  have hq : isQuotedToken (squote :: (content ++ [squote])) = true := by
    have hlast : (squote :: (content ++ [squote])).getLast? = some squote := by
      rw [← List.cons_append, List.getLast?_concat]
    simp [isQuotedToken, hlast]
  unfold tokenBytes
  simp only [List.cons_append]
  rw [hd, hh, hq]
  simp [List.drop, List.dropLast_concat]

/-- Any syntax error escaping the whole token loop carries the input `s`. -/
theorem runTokens_syntaxError (s : List Char) (table : List (List Char × Nat)) :
    ∀ (ws : List (List Char)) (r : List Nat) (n p : Nat) (t : List Char),
      runTokens s table ws r n p = Except.error (ScriptErr.syntaxError t) →
        t = s
  | [], r, n, p, t => by
      intro h
      simp [runTokens] at h
  | w :: ws, r, n, p, t => by
      intro h
      simp only [runTokens] at h
      split at h
      · exact runTokens_syntaxError s table ws r n p t h
      · cases hPT : processToken s table r n p w with
        | error e =>
            rw [hPT] at h
            have h2 : e = ScriptErr.syntaxError t := Except.error.inj h
            subst h2
            rcases processToken_error_cases s table r n p w _ hPT with h1 | ⟨a, b, h3⟩
            · exact tokenBytes_syntaxError s table w t h1
            · exact ScriptErr.noConfusion h3
        | ok x =>
            obtain ⟨r2, n2, p2⟩ := x
            rw [hPT] at h
            exact runTokens_syntaxError s table ws r2 n2 p2 t h

/-- C3: a token `0x` + non-empty even-length hex string appends exactly the
hex-decoded bytes with no push opcode or length prefix, growing the buffer
by half the hex-digit count; `Assemble ("0x0a")` yields the single byte
`0x0a`; a `0x`-prefixed token with non-empty remainder that is not a valid
whole-byte hex string makes assembly fail with the malformed-hex error. -/
theorem c3_raw_hex_rule (s : List Char) (table : List (List Char × Nat))
    (h : List Char) (hne : h ≠ []) :
    (IsHex h = true →
      tokenBytes s table (Char.ofNat 48 :: Char.ofNat 120 :: h) =
        Except.ok (ParseHex h) ∧
      (ParseHex h).length = h.length / 2) ∧
    (IsHex h = false →
      ∀ (r : List Nat) (nps pds : Nat),
        processToken s table r nps pds (Char.ofNat 48 :: Char.ofNat 120 :: h) =
          Except.error ScriptErr.malformedHex) ∧
    ParseScript ("0x0a".data) = Except.ok [10] := by
  refine ⟨?_, ?_, by decide⟩
  · intro hHex
    refine ⟨?_, ParseHex_length h⟩
    rw [tokenBytes_hex s table h hne, if_pos hHex]
  · intro hHex r nps pds
    have hTB : tokenBytes s table (Char.ofNat 48 :: Char.ofNat 120 :: h) =
        Except.error ScriptErr.malformedHex := by
      rw [tokenBytes_hex s table h hne, if_neg]
      simp [hHex]
    unfold processToken
    rw [hTB]

/-- C3 witness: the theorem applied to the concrete remainders `0a` (valid
hex) and `zz` (malformed). -/
theorem c3_raw_hex_rule_witness :
    (tokenBytes [] [] (Char.ofNat 48 :: Char.ofNat 120 :: ("0a".data)) =
        Except.ok (ParseHex ("0a".data)) ∧
      (ParseHex ("0a".data)).length = ("0a".data).length / 2) ∧
    processToken [] [] [] 0 0 (Char.ofNat 48 :: Char.ofNat 120 :: ("zz".data)) =
      Except.error ScriptErr.malformedHex :=
  ⟨(c3_raw_hex_rule [] [] ("0a".data) (by decide)).1 (by decide),
   (c3_raw_hex_rule [] [] ("zz".data) (by decide)).2.1 (by decide) [] 0 0⟩

/-- C5 counterexample: on input `0xzz`, assembly fails with the
malformed-hex error, whose message is a fixed string containing neither the
complete original input `0xzz` nor the offending token (it does not even
contain `zz`) -- refuting the claim that every error carries at minimum the
complete original input and that the malformed-hex error names the
offending token. -/
theorem c5_counterexample :
    ParseScript ("0xzz".data) = Except.error ScriptErr.malformedHex ∧
    containsSub ("0xzz".data) (errMsg ScriptErr.malformedHex) = false ∧
    containsSub ("zz".data) (errMsg ScriptErr.malformedHex) = false :=
  ⟨by decide, by decide, by decide⟩

/-- C5 (amended): only the unknown-token syntax error carries the complete
original input (and it always carries exactly it); the malformed-hex error
is a fixed message naming neither token nor input; the push-size-mismatch
error reports the expected and actual byte counts but not the input. -/
theorem c5_error_context (s : List Char) (e : ScriptErr)
    (h : ParseScript s = Except.error e) :
    (∀ t, e = ScriptErr.syntaxError t →
      t = s ∧ errMsg e = ("Error parsing script: ").data ++ s) ∧
    (e = ScriptErr.malformedHex →
      errMsg e =
        ("Hex numbers expected to be formatted in full-byte chunks (ex: 0x00 instead of 0x0)").data) ∧
    (∀ a b, e = ScriptErr.pushSizeMismatch a b →
      errMsg e = ("Wrong number of bytes being pushed. Expected:").data ++
        (Nat.repr a).data ++ (" Pushed:").data ++ (Nat.repr b).data) := by
  refine ⟨?_, ?_, ?_⟩
  · intro t ht
    subst ht
    have hts : t = s := runTokens_syntaxError s mapOpNames (tokenize s) [] 0 0 t h
    subst hts
    exact ⟨rfl, rfl⟩
  · intro he
    subst he
    rfl
  · intro a b he
    subst he
    rfl

/-- C5 witness: the amended theorem applied to the unknown token `zzz`. -/
theorem c5_error_context_witness :
    ("zzz".data : List Char) = "zzz".data ∧
    errMsg (ScriptErr.syntaxError ("zzz".data)) =
      ("Error parsing script: ").data ++ ("zzz".data) :=
  (c5_error_context ("zzz".data) (ScriptErr.syntaxError ("zzz".data))
    (by decide)).1 ("zzz".data) rfl

/-- C6 counterexample: the lone token `-` is accepted by the decimal rule
(the digit check holds vacuously on the empty remainder after the minus),
parses as zero and assembles to the single byte `OP_0 = 0x00` -- assembly
succeeds, refuting the claim that a lone `-` matches no rule and fails with
a syntax error. -/
theorem c6_counterexample :
    ParseScript ([Char.ofNat 45]) = Except.ok [0] := by decide

/-- C6 (amended): a token is classified by the decimal rule exactly when
all its characters are digits, or it begins with a minus and all remaining
characters are digits -- this admits the degenerate lone `-`, which parses
as zero; a decimal token is appended via the minimal-integer push encoder
applied to its signed 64-bit value; a non-empty token matching none of the
four rules fails with the syntax error carrying the full input. -/
theorem c6_decimal_rule (s : List Char) (table : List (List Char × Nat))
    (w : List Char) (hw : w ≠ []) :
    (isDecimalToken w = true ↔
      (w.all isDigitB = true ∨
        ∃ rest, w = Char.ofNat 45 :: rest ∧ rest.all isDigitB = true)) ∧
    (isDecimalToken w = true →
      tokenBytes s table w = Except.ok (pushInt64 (atoi64 w))) ∧
    (isDecimalToken w = false → isHexToken w = false → isQuotedToken w = false →
      lookupOp table w = none →
      tokenBytes s table w = Except.error (ScriptErr.syntaxError s)) := by
  refine ⟨?_, ?_, ?_⟩
  · cases w with
    | nil => exact absurd rfl hw
    | cons c rest =>
        simp [isDecimalToken, List.all_cons, List.cons.injEq]
        aesop
  · intro hdec
    simp [tokenBytes, hdec]
  · intro h1 h2 h3 h4
    simp [tokenBytes, h1, h2, h3, h4]

/-- C6 witness: the amended theorem applied to the token `-12`. -/
theorem c6_decimal_rule_witness :
    tokenBytes [] [] ("-12".data) =
      Except.ok (pushInt64 (atoi64 ("-12".data))) :=
  (c6_decimal_rule [] [] ("-12".data) (by decide)).2.1 (by decide)

/-- C7: a token of length ≥ 2 that starts and ends with a single quote
appends the bytes between the quotes verbatim (no escape processing),
preceded by whatever opcode the generic data-push encoder selects for that
content length; in particular `Assemble ("'abc'")` yields
`[0x03, 0x61, 0x62, 0x63]`. -/
theorem c7_quoted_literal (s : List Char) (table : List (List Char × Nat))
    (content : List Char) :
    tokenBytes s table (squote :: content ++ [squote]) =
      Except.ok (pushData (content.map Char.toNat)) ∧
    ParseScript ("'abc'".data) = Except.ok [3, 97, 98, 99] :=
  ⟨tokenBytes_quoted s table content, by decide⟩

/-- With a single appended byte, `*result.rbegin()` is that byte. -/
theorem getLast_append_single (r : List Nat) (b : Nat) :
    ((r ++ [b]).getLast?).getD 0 = b := by
  rw [List.getLast?_concat]
  rfl

/-- C1: with a pending push expectation of `N ≠ 0` bytes, the next
non-empty token whose processing changes the buffer by a different byte
count makes the loop fail with the push-size-mismatch error carrying both
the expected and the actual count; if it changes the buffer by exactly `N`
bytes, that token's processing succeeds, the loop continues from it, and
(when no PUSHDATA length-field decode is pending) the expectation is
cleared. -/
theorem c1_push_size_enforced (s : List Char) (table : List (List Char × Nat))
    (w : List Char) (ws : List (List Char)) (r : List Nat) (N pds : Nat)
    (bs : List Nat) (hN : N ≠ 0) (hw : w ≠ [])
    (hbs : tokenBytes s table w = Except.ok bs) :
    (bs.length ≠ N →
      runTokens s table (w :: ws) r N pds =
        Except.error (ScriptErr.pushSizeMismatch N bs.length)) ∧
    (bs.length = N →
      ∃ nps pds2,
        processToken s table r N pds w = Except.ok (r ++ bs, nps, pds2) ∧
        runTokens s table (w :: ws) r N pds =
          runTokens s table ws (r ++ bs) nps pds2 ∧
        (pds = 0 → nps = 0)) := by
  constructor
  · intro hlen
    have hPT : processToken s table r N pds w =
        Except.error (ScriptErr.pushSizeMismatch N bs.length) := by
      unfold processToken
      simp only [hbs]
      rw [if_pos ⟨hN, hlen⟩]
    rw [runTokens_cons s table w ws r N pds hw, hPT]
  · intro hlen
    have hcond : ¬(N ≠ 0 ∧ bs.length ≠ N) := fun hc => hc.2 hlen
    have hguard : ¬(N = 0 ∧ bs.length = 1) := fun hc => hN hc.1
    have hPT : processToken s table r N pds w =
        Except.ok (r ++ bs,
          (if N ≠ 0 ∧ pds ≠ 0 then (readLE pds bs, 0) else (0, pds)).1,
          (if N ≠ 0 ∧ pds ≠ 0 then (readLE pds bs, 0) else (0, pds)).2) := by
      unfold processToken
      simp only [hbs, if_neg hcond, if_neg hguard]
    refine ⟨_, _, hPT, ?_, ?_⟩
    · rw [runTokens_cons s table w ws r N pds hw, hPT]
    · intro hpds0
      simp [hpds0]

/-- C1 witness: expectation 3 pending, the token `0x0102` contributes only
two bytes, and the loop fails reporting expected 3 and pushed 2. -/
theorem c1_push_size_enforced_witness :
    runTokens [] [] [Char.ofNat 48 :: Char.ofNat 120 :: ("0102".data)] [] 3 0 =
      Except.error (ScriptErr.pushSizeMismatch 3 2) :=
  (c1_push_size_enforced [] [] (Char.ofNat 48 :: Char.ofNat 120 :: ("0102".data))
    [] [] 3 0 [1, 2] (by decide) (by decide) (by decide)).1 (by decide)

/-- C2 counterexample: in `0x01 0x4c 0x1122` the second token emits exactly
the PUSHDATA1 opcode byte `0x4c`, but it does so while satisfying a pending
one-byte push, so no length-field state is armed: the immediately following
token contributes two bytes rather than the one byte the claim demands, no
little-endian length decode happens, and assembly nevertheless succeeds --
refuting the claim as universally stated over all inputs. -/
theorem c2_counterexample :
    tokenBytes ("0x01 0x4c 0x1122".data) mapOpNames
      (Char.ofNat 48 :: Char.ofNat 120 :: ("4c".data)) =
        Except.ok [OP_PUSHDATA1] ∧
    tokenBytes ("0x01 0x4c 0x1122".data) mapOpNames
      (Char.ofNat 48 :: Char.ofNat 120 :: ("1122".data)) =
        Except.ok [17, 34] ∧
    ParseScript ("0x01 0x4c 0x1122".data) = Except.ok [1, 76, 17, 34] :=
  ⟨by decide, by decide, by decide⟩

/-- C2 (amended): when a token's processing appends exactly the single
opcode byte PUSHDATA1/2/4 (value `75 + k` with `k` equal to 1, 2 or 4)
while no push expectation is pending, the loop arms a `k`-byte expectation
and a `k`-byte length-field width; the immediately following token must
then contribute exactly `k` bytes -- otherwise the loop fails with the
push-size-mismatch error -- and those `k` bytes are decoded as an unsigned
little-endian integer of width `k` to become the pending push expectation
for the token after that, with the field-width state cleared. -/
theorem c2_pushdata_length_field (s : List Char) (table : List (List Char × Nat))
    (r : List Nat) (pds op k : Nat) (w : List Char)
    (hk : (op = OP_PUSHDATA1 ∧ k = 1) ∨ (op = OP_PUSHDATA2 ∧ k = 2) ∨
          (op = OP_PUSHDATA4 ∧ k = 4))
    (hw : tokenBytes s table w = Except.ok [op]) :
    processToken s table r 0 pds w = Except.ok (r ++ [op], k, k) ∧
    ∀ (w2 : List Char) (bs2 : List Nat),
      tokenBytes s table w2 = Except.ok bs2 →
      (bs2.length ≠ k →
        processToken s table (r ++ [op]) k k w2 =
          Except.error (ScriptErr.pushSizeMismatch k bs2.length)) ∧
      (bs2.length = k →
        processToken s table (r ++ [op]) k k w2 =
          Except.ok ((r ++ [op]) ++ bs2, readLE k bs2, 0)) := by
  have hknz : k ≠ 0 := by
    rcases hk with ⟨_, rfl⟩ | ⟨_, rfl⟩ | ⟨_, rfl⟩ <;> decide
  constructor
  · rcases hk with ⟨rfl, rfl⟩ | ⟨rfl, rfl⟩ | ⟨rfl, rfl⟩ <;>
      simp [processToken, hw, getLast_append_single,
        OP_PUSHDATA1, OP_PUSHDATA2, OP_PUSHDATA4]
  · intro w2 bs2 hb2
    constructor
    · intro hlen
      unfold processToken
      simp only [hb2]
      rw [if_pos ⟨hknz, hlen⟩]
    · intro hlen
      have hcond : ¬(k ≠ 0 ∧ bs2.length ≠ k) := fun hc => hc.2 hlen
      have hguard : ¬(k = 0 ∧ bs2.length = 1) := fun hc => hknz hc.1
      have hnp : (k ≠ 0 ∧ k ≠ 0) := ⟨hknz, hknz⟩
      unfold processToken
      simp only [hb2, if_neg hcond, if_neg hguard, if_pos hnp]

/-- C2 witness: `PUSHDATA1` armed by the raw byte `0x4c`, then the one-byte
length field `0x02` decoded little-endian into the next expectation. -/
theorem c2_pushdata_length_field_witness :
    processToken [] [] [] 0 0 (Char.ofNat 48 :: Char.ofNat 120 :: ("4c".data)) =
      Except.ok ([] ++ [OP_PUSHDATA1], 1, 1) ∧
    processToken [] [] ([] ++ [OP_PUSHDATA1]) 1 1
        (Char.ofNat 48 :: Char.ofNat 120 :: ("02".data)) =
      Except.ok (([] ++ [OP_PUSHDATA1]) ++ [2], readLE 1 [2], 0) :=
  have h := c2_pushdata_length_field [] [] [] 0 OP_PUSHDATA1 1
    (Char.ofNat 48 :: Char.ofNat 120 :: ("4c".data)) (Or.inl ⟨rfl, rfl⟩)
    (by decide)
  ⟨h.1,
   ((h.2 (Char.ofNat 48 :: Char.ofNat 120 :: ("02".data)) [2] (by decide)).2
     (by decide))⟩

/-- C4: for a token processed with no pending push expectation whose
processing appends exactly one byte -- whichever rule produced it -- a byte
value below `OP_PUSHDATA1` becomes the pending push expectation for the
next token; if the appended byte count is not 1, or a push expectation was
pending (here: met, with no length field pending), no expectation is
derived from the byte value. -/
theorem c4_single_byte_push_detection (s : List Char)
    (table : List (List Char × Nat)) (r : List Nat) (pds : Nat)
    (w : List Char) :
    (∀ b, tokenBytes s table w = Except.ok [b] → b < OP_PUSHDATA1 →
      processToken s table r 0 pds w = Except.ok (r ++ [b], b, pds)) ∧
    (∀ bs, tokenBytes s table w = Except.ok bs → bs.length ≠ 1 →
      processToken s table r 0 pds w = Except.ok (r ++ bs, 0, pds)) ∧
    (∀ bs N, tokenBytes s table w = Except.ok bs → N ≠ 0 → bs.length = N →
      processToken s table r N 0 w = Except.ok (r ++ bs, 0, 0)) := by
  refine ⟨?_, ?_, ?_⟩
  · intro b hbs hb
    have hguard : (0 = 0 ∧ ([b] : List Nat).length = 1) := ⟨rfl, rfl⟩
    unfold processToken
    simp only [hbs, if_pos hguard, getLast_append_single]
    simp [hb]
  · intro bs hbs hlen
    have hguard : ¬(0 = 0 ∧ bs.length = 1) := fun hc => hlen hc.2
    unfold processToken
    simp only [hbs, if_neg hguard]
    simp
    intro h1
    exact absurd h1 hlen
  · intro bs N hbs hN hlen
    have hcond : ¬(N ≠ 0 ∧ bs.length ≠ N) := fun hc => hc.2 hlen
    have hguard : ¬(N = 0 ∧ bs.length = 1) := fun hc => hN hc.1
    have hnp : ¬(N ≠ 0 ∧ (0 : Nat) ≠ 0) := fun hc => hc.2 rfl
    unfold processToken
    simp only [hbs, if_neg hcond, if_neg hguard, if_neg hnp]

/-- C4 witness: the raw-hex literal `0x05` appends the single byte 5 < 76
and arms a five-byte expectation. -/
theorem c4_single_byte_push_detection_witness :
    processToken [] [] [] 0 0 (Char.ofNat 48 :: Char.ofNat 120 :: ("05".data)) =
      Except.ok ([] ++ [5], 5, 0) :=
  (c4_single_byte_push_detection [] [] [] 0
    (Char.ofNat 48 :: Char.ofNat 120 :: ("05".data))).1 5 (by decide) (by decide)

/-- C8: every entry of the opcode table has a value at least
`OP_PUSHDATA1` (below `FIRST_UNDEFINED_OP_VALUE`) and names no
unknown-opcode sentinel; and for every opcode contributing to the table,
assembling its canonical name and assembling its `OP_`-stripped alias each
produce exactly the identical single opcode byte. -/
theorem c8_opcode_table :
    (mapOpNames.all (fun q =>
      decide (OP_PUSHDATA1 ≤ q.2) &&
      decide (q.2 < FIRST_UNDEFINED_OP_VALUE) &&
      decide (¬ GetOpName q.2 = "OP_UNKNOWN"))) = true ∧
    ((List.range FIRST_UNDEFINED_OP_VALUE).all (fun op =>
      if op < OP_PUSHDATA1 then true
      else if GetOpName op = "OP_UNKNOWN" then true
      else
        decide ((ParseScript ((GetOpName op).data)).toOption = some [op]) &&
        decide ((ParseScript (stripOP ((GetOpName op).data))).toOption =
          some [op]))) = true :=
  ⟨by decide, by decide⟩

/-- C9 counterexample: a deserializer run by `DecodeHexBlk` that succeeds
while leaving both decoded bytes of the valid hex input `0102` unconsumed
still makes `DecodeHexBlk` return true -- refuting the claim that both
decoders return false when the deserializer leaves unconsumed trailing
bytes (only `DecodeHexTx` performs that check). -/
theorem c9_counterexample :
    DecodeHexBlk idDeser ("0102".data) = true ∧
    idDeser (ParseHex ("0102".data)) = Except.ok ((), [1, 2]) ∧
    ([1, 2] : List Nat) ≠ [] ∧
    DecodeHexTx idDeser ("0102".data) = false :=
  ⟨by decide, by decide, by decide, by decide⟩

/-- C9 (amended): both decoders are total boolean functions; both return
false when the input is not valid hex or when the inner deserializer
raises; `DecodeHexTx` additionally returns false exactly when the
deserializer leaves unconsumed trailing bytes, while `DecodeHexBlk`
returns true whenever deserialization succeeds, regardless of unconsumed
trailing bytes. -/
theorem c9_decode_hex_wrappers {α β : Type} (dtx : Deserializer α)
    (dblk : Deserializer β) (s : List Char) :
    (IsHex s = false →
      DecodeHexTx dtx s = false ∧ DecodeHexBlk dblk s = false) ∧
    (∀ e, IsHex s = true → dtx (ParseHex s) = Except.error e →
      DecodeHexTx dtx s = false) ∧
    (∀ e, IsHex s = true → dblk (ParseHex s) = Except.error e →
      DecodeHexBlk dblk s = false) ∧
    (∀ v rest, IsHex s = true → dtx (ParseHex s) = Except.ok (v, rest) →
      DecodeHexTx dtx s = rest.isEmpty) ∧
    (∀ v rest, IsHex s = true → dblk (ParseHex s) = Except.ok (v, rest) →
      DecodeHexBlk dblk s = true) := by
  refine ⟨?_, ?_, ?_, ?_, ?_⟩
  · intro hs
    exact ⟨by simp [DecodeHexTx, hs], by simp [DecodeHexBlk, hs]⟩
  · intro e hs hd
    simp [DecodeHexTx, hs, hd]
  · intro e hs hd
    simp [DecodeHexBlk, hs, hd]
  · intro v rest hs hd
    simp only [DecodeHexTx, hs, hd]
    cases hrest : rest.isEmpty <;> simp
  · intro v rest hs hd
    simp [DecodeHexBlk, hs, hd]

/-- C9 witness: the amended theorem applied to the non-hex input `zz` and
the nothing-consuming deserializer. -/
theorem c9_decode_hex_wrappers_witness :
    DecodeHexTx idDeser ("zz".data) = false ∧
    DecodeHexBlk idDeser ("zz".data) = false :=
  (c9_decode_hex_wrappers idDeser idDeser ("zz".data)).1 (by decide)

/-- C10: the token loop ends as soon as the tokens run out, returning the
buffer unconditionally -- no end-of-input check inspects the pending push
state; concretely, inputs ending with an unmet direct-length push
expectation (`0x02`), an unmet PUSHDATA opcode (`OP_PUSHDATA1`), and an
unmet PUSHDATA length field declaring two bytes that never follow
(`0x4c 0x02`) all assemble successfully. -/
theorem c10_trailing_obligation_unchecked :
    (∀ (s : List Char) (table : List (List Char × Nat)) (r : List Nat)
      (n p : Nat), runTokens s table [] r n p = Except.ok r) ∧
    ParseScript (Char.ofNat 48 :: Char.ofNat 120 :: ("02".data)) =
      Except.ok [2] ∧
    ParseScript ("OP_PUSHDATA1".data) = Except.ok [OP_PUSHDATA1] ∧
    ParseScript ("0x4c 0x02".data) = Except.ok [OP_PUSHDATA1, 2] :=
  ⟨fun _ _ _ _ _ => rfl, by decide, by decide, by decide⟩
